import Mathlib

/-
Shallow embedding of the IELTS Vocab Master data layer and the claims
about it.  The definitions below are translated from the TypeScript
source: the spaced-repetition update (updateWordProgress), the
save-with-local-fallback path (saveWordToProfile), the forgot-list flow
(markWordAsForgot, getFFLWords, the Quiz and Exam handlers), the audio
cache (prefetchAudio / playText) and the TTS retry loop (fetchTtsAudio).
Machine integers are modelled as Int/Nat, JS Date values as a Nat day
count, Firestore documents and the localStorage list as Lean lists, and
thrown JS errors as Except values.
-/

namespace VocabMaster

/-! ## JS string primitives, modelled over the character list so that the
kernel can evaluate them. -/

/-- Model of JS String.prototype.toLowerCase. -/
def jsToLower (s : String) : String := String.mk (s.data.map Char.toLower)

/-- Model of JS String.prototype.trim: drop leading and trailing whitespace. -/
def jsTrim (s : String) : String :=
  String.mk (((s.data.dropWhile Char.isWhitespace).reverse.dropWhile Char.isWhitespace).reverse)

/-- Substring test on character lists, used to model String.prototype.includes. -/
def containsSub (n : List Char) : List Char → Bool
  | [] => n.isPrefixOf []
  | c :: t => n.isPrefixOf (c :: t) || containsSub n t

/-- Model of JS hay.includes(needle). -/
def strIncludes (hay needle : String) : Bool := containsSub needle.data hay.data

/-- Model of JS s.startsWith(pre). -/
def jsStartsWith (s pre : String) : Bool := pre.data.isPrefixOf s.data

/-- In-place update of the element at one index of a list; models the
assignment words[idx].field = v after a findIndex. -/
def modifyAt {α : Type} (f : α → α) : Nat → List α → List α
  | _, [] => []
  | 0, x :: xs => f x :: xs
  | n + 1, x :: xs => x :: modifyAt f n xs

/-! ## Data model (src/types.ts) -/

/-- The WordDetails interface of src/types.ts.  The source field named
example is called exampleSentence here because example is a Lean keyword. -/
structure WordDetails where
  word : String
  ipa : Option String
  partOfSpeech : String
  definition : String
  exampleSentence : String
  collocations : List String
  synonyms : List String
  antonyms : List String
deriving Repr, DecidableEq

/-- The StoredWord interface of src/types.ts.  Timestamps are modelled as a
Nat day count; srsStage is an Int because the JS arithmetic on it is over
arbitrary numbers. -/
structure StoredWord extends WordDetails where
  id : String
  userId : String
  createdAt : Nat
  nextReviewAt : Nat
  srsStage : Int
  lastReviewedAt : Option Nat := none
  isInFFL : Option Bool := none
deriving Repr, DecidableEq

/-- A thrown JS / Firestore error: an optional error code and a message. -/
structure JsError where
  code : Option String
  message : String
deriving Repr, DecidableEq

/-! ## Spaced repetition update (src/unnamed/part_001, updateWordProgress) -/

/-- SRS_INTERVALS from the db service: spaced repetition intervals in days. -/
def SRS_INTERVALS : List Nat := [1, 3, 7, 14, 30, 90]

/-- JS array indexing arr[i] followed by the `or one` default: an out of
range or negative index yields undefined, and undefined as well as a falsy 0
is replaced by the default by the JS expression arr[i] or d. -/
def jsIndexOr (l : List Nat) (i : Int) (d : Nat) : Nat :=
  match (if 0 ≤ i then l.get? i.toNat else none) with
  | some v => if v = 0 then d else v
  | none => d

/-- The pure core of updateWordProgress: from the answer and the current
stage compute the new stage and the next review time (now plus the number
of days added to nextReviewDate). -/
def updateCore (isCorrect : Bool) (currentStage : Int) (now : Nat) : Int × Nat :=
  if isCorrect then
    let newStage := min (currentStage + 1) (SRS_INTERVALS.length : Int)
    let daysToAdd :=
      jsIndexOr SRS_INTERVALS (min (newStage - 1) ((SRS_INTERVALS.length : Int) - 1)) 1
    (newStage, now + daysToAdd)
  else
    (max 0 (currentStage - 1), now + 0)

/-- The localStorage fallback branch of updateWordProgress: find the word by
id and store the computed stage, next review time and last reviewed time.
The Firestore branch stores the same three fields through updateDoc. -/
def updateWordProgressLocal (words : List StoredWord) (wordId : String)
    (isCorrect : Bool) (currentStage : Int) (now : Nat) : List StoredWord :=
  let res := updateCore isCorrect currentStage now
  match words.findIdx? (fun w => w.id == wordId) with
  | some i =>
      modifyAt (fun w =>
        { w with srsStage := res.1, nextReviewAt := res.2, lastReviewedAt := some now }) i words
  | none => words

/-- getDueWords filtering step: a word is due when its next review time is
not after now. -/
def getDueWordsPure (words : List StoredWord) (now : Nat) : List StoredWord :=
  words.filter (fun w => w.nextReviewAt ≤ now)

/-! ## Frequently Forgot List flow (markWordAsForgot, getFFLWords,
Quiz.handleResult, Exam.handleNext) -/

/-- The field update performed by markWordAsForgot on the matched word. -/
def setFFLTrue (w : StoredWord) : StoredWord := { w with isInFFL := some true }

/-- markWordAsForgot, localStorage branch: set isInFFL := true on the word
with the given id, leave the list unchanged if the id is absent.  The
Firestore branch performs the same single field update through updateDoc. -/
def markWordAsForgotLocal (words : List StoredWord) (wordId : String) : List StoredWord :=
  match words.findIdx? (fun w => w.id == wordId) with
  | some i => modifyAt setFFLTrue i words
  | none => words

/-- getFFLWords: the words whose isInFFL flag is strictly equal to true. -/
def getFFLWordsPure (words : List StoredWord) : List StoredWord :=
  words.filter (fun w => w.isInFFL == some true)

/-- The two quiz modes of Quiz.tsx. -/
inductive QuizMode where
  | due
  | ffl
deriving Repr, DecidableEq

/-- Word-store effect of Quiz.handleResult: in due mode it calls
updateWordProgress with the answer; in ffl mode it performs no store
update at all (FFL is just practice).  It never calls markWordAsForgot. -/
def quizHandleResult (mode : QuizMode) (words : List StoredWord) (wordId : String)
    (correct : Bool) (currentStage : Int) (now : Nat) : List StoredWord :=
  match mode with
  | .due => updateWordProgressLocal words wordId correct currentStage now
  | .ffl => words

/-- Word-store effect of Exam.handleNext: when the user marks the word as
forgotten it calls markWordAsForgot, otherwise it leaves the store alone. -/
def examHandleNext (forgot : Bool) (words : List StoredWord) (wordId : String) : List StoredWord :=
  if forgot then markWordAsForgotLocal words wordId else words

/-! ## saveWordToProfile (src/unnamed/part_001) -/

/-- Environment for one saveWordToProfile call against Firestore: the words
already in the remote collection, and the errors (if any) thrown by the
duplicate query getDocs and by addDoc. -/
structure RemoteDb where
  words : List StoredWord
  queryError : Option JsError
  addError : Option JsError
deriving Repr, DecidableEq

/-- The fallback test of the catch block of saveWordToProfile: codes
permission-denied, unavailable, failed-precondition, not-found, or a
message containing the word permissions. -/
def isFirestoreErrorB (e : JsError) : Bool :=
  e.code == some "permission-denied" ||
  e.code == some "unavailable" ||
  e.code == some "failed-precondition" ||
  e.code == some "not-found" ||
  strIncludes e.message "permissions"

/-- The word document written by the Firestore branch of saveWordToProfile:
the word data plus userId, createdAt and nextReviewAt now, stage 0 and
isInFFL false; docId stands for the id Firestore assigns. -/
def mkRemoteWord (wordData : WordDetails) (userId : String) (now : Nat)
    (docId : String) : StoredWord :=
  { toWordDetails := wordData, id := docId, userId := userId, createdAt := now,
    nextReviewAt := now, srsStage := 0, lastReviewedAt := none, isInFFL := some false }

/-- The word record written by the localStorage branch of saveWordToProfile;
localId stands for the generated local id. -/
def mkLocalWord (wordData : WordDetails) (userId : String) (now : Nat)
    (localId : String) : StoredWord :=
  { toWordDetails := wordData, id := localId, userId := userId, createdAt := now,
    nextReviewAt := now, srsStage := 0, lastReviewedAt := none, isInFFL := some false }

/-- saveWordToProfile.  The result is the returned or thrown value together
with the remote word list and the local word list after the call.  The try
block queries for a document with the same word text, throws the
already-saved error when one exists, and otherwise adds the new document;
every error reaching the catch block that passes the Firestore error test
is retried against localStorage (with its own duplicate check, whose throw
escapes the function), and any other error is rethrown. -/
def saveWordToProfile (remote : RemoteDb) (localWords : List StoredWord)
    (userId : String) (wordData : WordDetails) (now : Nat) (docId localId : String) :
    Except JsError Bool × List StoredWord × List StoredWord :=
  let tryRes : Except JsError (List StoredWord) :=
    match remote.queryError with
    | some e => .error e
    | none =>
      if (remote.words.filter (fun w => w.word == wordData.word)).isEmpty = false then
        .error ⟨none, "You have already saved this word."⟩
      else
        match remote.addError with
        | some e => .error e
        | none => .ok (remote.words ++ [mkRemoteWord wordData userId now docId])
  match tryRes with
  | .ok newRemote => (.ok true, newRemote, localWords)
  | .error e =>
    if isFirestoreErrorB e then
      if localWords.any (fun w => w.word == wordData.word) then
        (.error ⟨none, "You have already saved this word."⟩, remote.words, localWords)
      else
        (.ok true, remote.words, localWords ++ [mkLocalWord wordData userId now localId])
    else
      (.error e, remote.words, localWords)

/-! ## Audio cache (src/unnamed/part_000: prefetchAudio, playText)

The Map of decoded AudioBuffers is modelled as an association list from the
normalized text key to an abstract buffer id; the outcome of one
fetchTtsAudio plus decodeAudioData round trip is an Option Nat argument
(none when the fetch or decode threw). -/

abbrev AudioCache : Type := List (String × Nat)

/-- Map.get / Map.has: the first entry with the given key. -/
def cacheLookup (c : AudioCache) (k : String) : Option Nat :=
  match List.find? (fun p => p.1 == k) c with
  | some p => some p.2
  | none => none

/-- Map.set: overwrite the first entry with the given key, or append a new
one at the end, preserving insertion order as a JS Map does. -/
def cacheSet (c : AudioCache) (k : String) (v : Nat) : AudioCache :=
  match c with
  | [] => [(k, v)]
  | p :: t => if p.1 == k then (k, v) :: t else p :: cacheSet t k v

/-- The cache key of both prefetchAudio and playText:
text.trim().toLowerCase(). -/
def audioCacheKey (text : String) : String := jsToLower (jsTrim text)

/-- prefetchAudio: skip falsy text, skip when the key is already cached,
otherwise fetch and decode, caching on success and failing silently
otherwise.  The Bool records whether a TTS fetch was performed. -/
def prefetchAudio (cache : AudioCache) (text : String) (fetched : Option Nat) :
    AudioCache × Bool :=
  if text == "" then (cache, false)
  else if (cacheLookup cache (audioCacheKey text)).isSome then (cache, false)
  else
    match fetched with
    | some buffer => (cacheSet cache (audioCacheKey text) buffer, true)
    | none => (cache, true)

/-- The cache interaction of playText: on a cache hit play the cached
buffer without fetching; on a miss fetch, decode and cache.  The Bool
records whether a TTS fetch was performed. -/
def playTextCacheStep (cache : AudioCache) (text : String) (fetched : Option Nat) :
    AudioCache × Bool :=
  if text == "" then (cache, false)
  else
    match cacheLookup cache (audioCacheKey text) with
    | some _ => (cache, false)
    | none =>
      match fetched with
      | some buffer => (cacheSet cache (audioCacheKey text) buffer, true)
      | none => (cache, true)

/-- One audio request: a prefetch or a playback, with the outcome its TTS
fetch would have. -/
inductive AudioOp where
  | prefetchOp (text : String) (fetched : Option Nat)
  | playOp (text : String) (fetched : Option Nat)
deriving Repr, DecidableEq

def runAudioOp (c : AudioCache) : AudioOp → AudioCache × Bool
  | .prefetchOp t f => prefetchAudio c t f
  | .playOp t f => playTextCacheStep c t f

def audioOpText : AudioOp → String
  | .prefetchOp t _ => t
  | .playOp t _ => t

/-- Run a sequence of audio requests, recording for each its normalized key
and whether it performed a TTS fetch. -/
def runAudioTrace (c : AudioCache) : List AudioOp → List (String × Bool)
  | [] => []
  | op :: ops =>
    let r := runAudioOp c op
    (audioCacheKey (audioOpText op), r.2) :: runAudioTrace r.1 ops

/-! ## TTS retry loop (src/services/geminiService.ts, fetchTtsAudio) -/

/-- The outcome of one generateContent attempt: either the call rejected
with an error (status and message), or it resolved to a candidate, of
which the model keeps the first part audio data, the first part text and
the finish reason. -/
inductive AttemptOut where
  | apiError (status : Option Nat) (msg : String)
  | resp (audioData : Option String) (textRefusal : Option String) (finishReason : Option String)
deriving Repr, DecidableEq

/-- JS truthiness of an optional string: present and nonempty. -/
def truthyStr : Option String → Bool
  | some s => !(s == "")
  | none => false

/-- The rate limit test of the catch block: status 429 or a message
containing 429, RESOURCE_EXHAUSTED or quota. -/
def rateLimitCheck (status : Option Nat) (msg : String) : Bool :=
  status == some 429 || strIncludes msg "429" ||
  strIncludes msg "RESOURCE_EXHAUSTED" || strIncludes msg "quota"

def serverCheck (status : Option Nat) : Bool :=
  status == some 500 || status == some 503

def otherCheck (msg : String) : Bool := strIncludes msg "OTHER"

/-- What one attempt leads to before the catch logic runs: a returned audio
string, the in-try retry opportunity for finish reason OTHER, or an error
caught by the catch block (the errors thrown inside the try block land in
the same catch). -/
inductive TryStep where
  | success (audio : String)
  | otherFinish
  | caught (status : Option Nat) (msg : String)
deriving Repr, DecidableEq

def tryStep : AttemptOut → TryStep
  | .apiError st msg => .caught st msg
  | .resp audioData textRefusal finishReason =>
    if truthyStr audioData then .success (audioData.getD "")
    else if truthyStr textRefusal then .caught none "Audio generation refused by model."
    else if truthyStr finishReason && !(finishReason.getD "" == "STOP") then
      if finishReason.getD "" == "OTHER" then .otherFinish
      else .caught none ("Audio generation failed (Reason: " ++ finishReason.getD "" ++ ")")
    else .caught none "Failed to generate audio: Empty response"

/-- Result of a makeRequest call: the resolved or rejected value, the number
of generateContent attempts it performed, and the backoff delays it slept
between attempts, in order. -/
structure TtsTrace where
  result : Except String String
  attempts : Nat
  delays : List Nat
deriving Repr

/-- makeRequest of fetchTtsAudio.  env gives the outcome of the attempt
performed at each retryCount (the count increases by one on every retry,
so it indexes the attempts). -/
def makeRequest (env : Nat → AttemptOut) (retryCount : Nat) : TtsTrace :=
  match tryStep (env retryCount) with
  | .success d => ⟨.ok d, 1, []⟩
  | .otherFinish =>
    if h : retryCount < 2 then
      let t := makeRequest env (retryCount + 1)
      ⟨t.result, t.attempts + 1, (1000 * (retryCount + 1)) :: t.delays⟩
    else
      -- at retryCount ≥ 2 the try block throws the OTHER failure message,
      -- which its own catch classifies as retryable with maxRetries 2 and,
      -- the bound being reached, rethrows
      let msg := "Audio generation failed (Reason: OTHER)"
      let isRateLimit := rateLimitCheck none msg
      if h2 : (isRateLimit || serverCheck none || otherCheck msg) = true ∧
          retryCount < (if isRateLimit then 3 else 2) then
        let t := makeRequest env (retryCount + 1)
        ⟨t.result, t.attempts + 1,
          ((if isRateLimit then 2000 else 1000) * 2 ^ retryCount) :: t.delays⟩
      else if isRateLimit then
        ⟨.error "Voice service quota exceeded. Please try again later.", 1, []⟩
      else
        ⟨.error (if msg == "" then "TTS Service Unavailable" else msg), 1, []⟩
  | .caught st msg =>
    let isRateLimit := rateLimitCheck st msg
    if h2 : (isRateLimit || serverCheck st || otherCheck msg) = true ∧
        retryCount < (if isRateLimit then 3 else 2) then
      let t := makeRequest env (retryCount + 1)
      ⟨t.result, t.attempts + 1,
        ((if isRateLimit then 2000 else 1000) * 2 ^ retryCount) :: t.delays⟩
    else if isRateLimit then
      ⟨.error "Voice service quota exceeded. Please try again later.", 1, []⟩
    else
      ⟨.error (if msg == "" then "TTS Service Unavailable" else msg), 1, []⟩
termination_by 4 - retryCount
decreasing_by
  · omega
  · rcases h2 with ⟨-, hlt⟩
    split at hlt <;> omega
  · rcases h2 with ⟨-, hlt⟩
    split at hlt <;> omega

/-- fetchTtsAudio: reject on empty trimmed text, otherwise run makeRequest
from retry count zero. -/
def fetchTtsAudio (env : Nat → AttemptOut) (text : String) : TtsTrace :=
  if jsTrim text == "" then ⟨.error "Text is empty", 0, []⟩
  else makeRequest env 0

/-! ## Derived notions used by the claims -/

/-- The stage a fresh word (stage 0) reaches after n consecutive correct
recalls. -/
def stageAfterSuccesses : Nat → Int
  | 0 => 0
  | n + 1 => (updateCore true (stageAfterSuccesses n) 0).1

/-- The review delay in days scheduled by a correct recall at a given
stage. -/
def successDelay (s : Int) : Nat := (updateCore true s 0).2

/-- A sample stored word used by the witnesses. -/
def sampleWord : StoredWord :=
  { word := "resilient", ipa := some "rɪˈzɪliənt", partOfSpeech := "adjective",
    definition := "able to recover quickly", exampleSentence := "She is resilient.",
    collocations := ["resilient economy"], synonyms := ["tough"], antonyms := ["fragile"],
    id := "w1", userId := "u1", createdAt := 0, nextReviewAt := 0, srsStage := 0,
    lastReviewedAt := none, isInFFL := none }

/-! ## Helper lemmas -/

lemma modifyAt_getElem? {α : Type} (f : α → α) : ∀ (i j : Nat) (l : List α),
    (modifyAt f i l)[j]? = if j = i then (l[j]?).map f else l[j]?
  | i, j, [] => by simp [modifyAt]
  | 0, 0, x :: xs => by simp [modifyAt]
  | 0, j + 1, x :: xs => by simp [modifyAt]
  | i + 1, 0, x :: xs => by simp [modifyAt]
  | i + 1, j + 1, x :: xs => by
    simp [modifyAt, Nat.succ_inj]
    simpa using modifyAt_getElem? f i j xs

lemma updateWordProgressLocal_getElem? (words : List StoredWord) (wordId : String)
    (c : Bool) (s : Int) (now : Nat) (i : Nat) (w : StoredWord)
    (hf : words.findIdx? (fun x => x.id == wordId) = some i)
    (hg : words[i]? = some w) :
    (updateWordProgressLocal words wordId c s now)[i]? =
      some { w with srsStage := (updateCore c s now).1,
                    nextReviewAt := (updateCore c s now).2,
                    lastReviewedAt := some now } := by
  unfold updateWordProgressLocal
  simp [hf, modifyAt_getElem?, hg]

/-! ## Claim C1 -/

/-- Claim C1: a review recorded with a correct recall at current stage s
advances the stored stage by one, capped at the six-step table, and
schedules the next review at now plus the SRS_INTERVALS entry (in days)
selected by the new stage; a word recalled at stage 0 becomes due 1 day
later and a word at the top of the table becomes due 90 days later.  The
same stage and next-review values are written to the stored word record. -/
theorem C1_success_review_schedule (s : Int) (now : Nat) (h : 0 ≤ s) :
    ∃ d : Nat,
      SRS_INTERVALS.get? ((min (s + 1) 6 - 1).toNat) = some d ∧
      updateCore true s now = (min (s + 1) 6, now + d) ∧
      (s = 0 → d = 1) ∧
      (5 ≤ s → d = 90) ∧
      (∀ (words : List StoredWord) (wordId : String) (i : Nat) (w : StoredWord),
        words.findIdx? (fun x => x.id == wordId) = some i →
        words[i]? = some w →
        (updateWordProgressLocal words wordId true s now)[i]? =
          some { w with srsStage := min (s + 1) 6, nextReviewAt := now + d,
                        lastReviewedAt := some now }) := by
  have store : ∀ (d : Nat), updateCore true s now = (min (s + 1) 6, now + d) →
      ∀ (words : List StoredWord) (wordId : String) (i : Nat) (w : StoredWord),
        words.findIdx? (fun x => x.id == wordId) = some i →
        words[i]? = some w →
        (updateWordProgressLocal words wordId true s now)[i]? =
          some { w with srsStage := min (s + 1) 6, nextReviewAt := now + d,
                        lastReviewedAt := some now } := by
    intro d hcore words wordId i w hf hg
    rw [updateWordProgressLocal_getElem? words wordId true s now i w hf hg, hcore]
  rcases le_or_lt 5 s with h5 | h5
  · have hmin : min (s + 1) 6 = 6 := by omega
    have hcore : updateCore true s now = (min (s + 1) 6, now + 90) := by
      unfold updateCore
      rw [if_pos rfl]
      rw [show min (s + 1) (SRS_INTERVALS.length : Int) = min (s + 1) 6 by
        norm_num [SRS_INTERVALS]]
      rw [hmin]
      norm_num [jsIndexOr, SRS_INTERVALS]
      decide
    exact ⟨90, by rw [hmin]; decide, hcore, by omega, fun _ => rfl, store 90 hcore⟩
  · interval_cases s
    · exact ⟨1, by decide, rfl, fun _ => rfl, by omega, store 1 rfl⟩
    · exact ⟨3, by decide, rfl, by omega, by omega, store 3 rfl⟩
    · exact ⟨7, by decide, rfl, by omega, by omega, store 7 rfl⟩
    · exact ⟨14, by decide, rfl, by omega, by omega, store 14 rfl⟩
    · exact ⟨30, by decide, rfl, by omega, by omega, store 30 rfl⟩

/-- Witness for C1 at stage 0 and time 0. -/
theorem C1_success_review_schedule_witness :
    (0 : Int) ≤ 0 ∧
    ∃ d : Nat,
      SRS_INTERVALS.get? ((min ((0 : Int) + 1) 6 - 1).toNat) = some d ∧
      updateCore true 0 0 = (min ((0 : Int) + 1) 6, 0 + d) ∧
      ((0 : Int) = 0 → d = 1) ∧
      ((5 : Int) ≤ 0 → d = 90) ∧
      (∀ (words : List StoredWord) (wordId : String) (i : Nat) (w : StoredWord),
        words.findIdx? (fun x => x.id == wordId) = some i →
        words[i]? = some w →
        (updateWordProgressLocal words wordId true 0 0)[i]? =
          some { w with srsStage := min ((0 : Int) + 1) 6, nextReviewAt := 0 + d,
                        lastReviewedAt := some 0 }) :=
  ⟨by decide, C1_success_review_schedule 0 0 (by decide)⟩

/-! ## Claim C2 -/

/-- Claim C2, counterexample: a failed recall at stage 0 stores stage 0
again, not stage s - 1 as the claim states. -/
theorem C2_failed_review_cex :
    (updateCore false 0 100).1 = 0 ∧ (updateCore false 0 100).1 ≠ (0 : Int) - 1 := by
  decide

/-- Claim C2, amended: a failed recall regresses the stored stage by one
floored at zero (exactly by one when the stage is at least 1) and sets the
next review to the current time, so the word is again in the due list. -/
theorem C2_failed_review_regress (s : Int) (now : Nat)
    (words : List StoredWord) (wordId : String) (i : Nat) (w : StoredWord)
    (hf : words.findIdx? (fun x => x.id == wordId) = some i)
    (hg : words[i]? = some w) :
    updateCore false s now = (max 0 (s - 1), now) ∧
    (1 ≤ s → (updateCore false s now).1 = s - 1) ∧
    ((updateWordProgressLocal words wordId false s now)[i]? =
      some { w with srsStage := max 0 (s - 1), nextReviewAt := now,
                    lastReviewedAt := some now }) ∧
    ∃ w', (updateWordProgressLocal words wordId false s now)[i]? = some w' ∧
      w'.srsStage = max 0 (s - 1) ∧ w'.nextReviewAt = now ∧
      w' ∈ getDueWordsPure (updateWordProgressLocal words wordId false s now) now := by
  have hcore : updateCore false s now = (max 0 (s - 1), now) := rfl
  have hstore := updateWordProgressLocal_getElem? words wordId false s now i w hf hg
  rw [hcore] at hstore
  refine ⟨hcore, ?_, hstore, ?_⟩
  · intro h1
    rw [hcore]
    simp
    omega
  · refine ⟨_, hstore, rfl, rfl, ?_⟩
    have hmem := List.get?_mem (n := i) (by rw [List.get?_eq_getElem?]; exact hstore)
    exact List.mem_filter.mpr ⟨hmem, by simp⟩

/-- Witness for the amended C2 at stage 2 on a one-word store. -/
theorem C2_failed_review_regress_witness :
    updateCore false 2 5 = (max 0 ((2 : Int) - 1), 5) ∧
    ((1 : Int) ≤ 2 → (updateCore false 2 5).1 = 2 - 1) ∧
    ((updateWordProgressLocal [sampleWord] "w1" false 2 5)[0]? =
      some { sampleWord with srsStage := max 0 ((2 : Int) - 1), nextReviewAt := 5,
                             lastReviewedAt := some 5 }) ∧
    ∃ w', (updateWordProgressLocal [sampleWord] "w1" false 2 5)[0]? = some w' ∧
      w'.srsStage = max 0 ((2 : Int) - 1) ∧ w'.nextReviewAt = 5 ∧
      w' ∈ getDueWordsPure (updateWordProgressLocal [sampleWord] "w1" false 2 5) 5 :=
  C2_failed_review_regress 2 5 [sampleWord] "w1" 0 sampleWord (by decide) (by decide)

/-! ## Claim C8 -/

/-- Claim C8, counterexample: stage 6 is reachable by successful reviews,
and there a further successful recall schedules 90 days again, not a
strictly greater interval than the one scheduled at the previous stage. -/
theorem C8_srs_monotone_cex :
    stageAfterSuccesses 6 = 6 ∧ successDelay 6 = 90 ∧ successDelay 5 = 90 ∧
    ¬ successDelay 5 < successDelay 6 := by decide

/-- Claim C8, amended: along the success chain the scheduled interval
strictly increases for the first five steps and saturates at 90 days at
the top stage; a failed recall never schedules a later next-review time
than a successful recall at the same stage would. -/
theorem C8_srs_monotone (n : Nat) (h : n ≤ 4) :
    successDelay (stageAfterSuccesses (n + 1)) > successDelay (stageAfterSuccesses n) ∧
    successDelay (stageAfterSuccesses 6) = successDelay (stageAfterSuccesses 5) ∧
    ∀ (s : Int) (now : Nat), (updateCore false s now).2 ≤ (updateCore true s now).2 := by
  refine ⟨?_, by decide, ?_⟩
  · interval_cases n <;> decide
  · intro s now
    unfold updateCore
    simp

/-- Witness for the amended C8 at the first success step. -/
theorem C8_srs_monotone_witness :
    successDelay (stageAfterSuccesses (0 + 1)) > successDelay (stageAfterSuccesses 0) ∧
    successDelay (stageAfterSuccesses 6) = successDelay (stageAfterSuccesses 5) ∧
    ∀ (s : Int) (now : Nat), (updateCore false s now).2 ≤ (updateCore true s now).2 :=
  C8_srs_monotone 0 (by decide)

/-! ## Claim C10 -/

/-- Claim C10: from any current stage between 0 and 6 the stored stage
stays between 0 and 6; a correct answer at stage 5 produces stage 6 with
the interval saturating at 90 days; and the scheduled delay is 0 days on
failure and an entry of the interval table on success. -/
theorem C10_stage_bounds (c : Bool) (s : Int) (now : Nat) (h0 : 0 ≤ s) (h6 : s ≤ 6) :
    ∃ (st : Int) (d : Nat),
      updateCore c s now = (st, now + d) ∧
      0 ≤ st ∧ st ≤ 6 ∧
      (c = true → d ∈ SRS_INTERVALS) ∧
      (c = false → d = 0) ∧
      (c = true → s = 5 → st = 6 ∧ d = 90) := by
  cases c <;> interval_cases s <;>
    exact ⟨_, _, rfl, by decide, by decide, by decide, by decide, by decide⟩

/-- Witness for C10 with a correct answer at stage 5. -/
theorem C10_stage_bounds_witness :
    (0 : Int) ≤ 5 ∧ (5 : Int) ≤ 6 ∧
    ∃ (st : Int) (d : Nat),
      updateCore true 5 7 = (st, 7 + d) ∧
      0 ≤ st ∧ st ≤ 6 ∧
      (true = true → d ∈ SRS_INTERVALS) ∧
      (true = false → d = 0) ∧
      (true = true → (5 : Int) = 5 → st = 6 ∧ d = 90) :=
  ⟨by decide, by decide, C10_stage_bounds true 5 7 (by decide) (by decide)⟩

/-! ## Further helper lemmas for the cache and TTS claims -/

lemma cacheLookup_set (c : AudioCache) (k : String) (v : Nat) (k' : String) :
    cacheLookup (cacheSet c k v) k' = if k' = k then some v else cacheLookup c k' := by
  induction c with
  | nil =>
    by_cases h : k' = k
    · subst h
      simp [cacheSet, cacheLookup, List.find?]
    · have hkk : (k == k') = false := beq_eq_false_iff_ne.mpr (fun he => h he.symm)
      simp [cacheSet, cacheLookup, List.find?, hkk, h]
  | cons p t ih =>
    by_cases hp : (p.1 == k) = true
    · have hp' : p.1 = k := by simpa using hp
      by_cases h : k' = k
      · subst h
        simp [cacheSet, hp, cacheLookup, List.find?]
      · have hkk : (k == k') = false := beq_eq_false_iff_ne.mpr (fun he => h he.symm)
        have hpk' : (p.1 == k') = false := by rw [hp']; exact hkk
        simp [cacheSet, hp, cacheLookup, List.find?, hkk, hpk', h]
    · by_cases hq : (p.1 == k') = true
      · have hq' : p.1 = k' := by simpa using hq
        have h : ¬ (k' = k) := fun he => hp (by simp [hq', he])
        simp [cacheSet, hp, cacheLookup, List.find?, hq, h]
      · simp only [cacheSet, if_neg hp]
        unfold cacheLookup
        rw [List.find?_cons_of_neg _ (by simpa using hq),
          List.find?_cons_of_neg _ (by simpa using hq)]
        exact ih

lemma runAudioOp_preserves (c : AudioCache) (op : AudioOp) (k : String) (b : Nat)
    (h : cacheLookup c k = some b) : cacheLookup (runAudioOp c op).1 k = some b := by
  cases op with
  | prefetchOp t f =>
    show cacheLookup (prefetchAudio c t f).1 k = some b
    unfold prefetchAudio
    split
    · exact h
    · split
      · exact h
      · rename_i hns
        cases f with
        | some buffer =>
          have hnone : cacheLookup c (audioCacheKey t) = none :=
            Option.not_isSome_iff_eq_none.mp hns
          show cacheLookup (cacheSet c (audioCacheKey t) buffer) k = some b
          rw [cacheLookup_set,
            if_neg (fun heq => by rw [heq, hnone] at h; exact Option.noConfusion h)]
          exact h
        | none => exact h
  | playOp t f =>
    show cacheLookup (playTextCacheStep c t f).1 k = some b
    unfold playTextCacheStep
    split
    · exact h
    · cases hl : cacheLookup c (audioCacheKey t) with
      | some v => exact h
      | none =>
        cases f with
        | some buffer =>
          show cacheLookup (cacheSet c (audioCacheKey t) buffer) k = some b
          rw [cacheLookup_set,
            if_neg (fun heq => by rw [heq, hl] at h; exact Option.noConfusion h)]
          exact h
        | none => exact h

lemma runAudioOp_no_refetch (c : AudioCache) (op : AudioOp) (k : String) (b : Nat)
    (h : cacheLookup c k = some b) (hk : audioCacheKey (audioOpText op) = k) :
    (runAudioOp c op).2 = false := by
  cases op with
  | prefetchOp t f =>
    show (prefetchAudio c t f).2 = false
    unfold prefetchAudio
    split
    · rfl
    · rw [if_pos (by rw [audioOpText] at hk; rw [hk, h]; rfl)]
  | playOp t f =>
    show (playTextCacheStep c t f).2 = false
    unfold playTextCacheStep
    split
    · rfl
    · rw [audioOpText] at hk
      rw [hk, h]

lemma makeRequest_rl_retry (env : Nat → AttemptOut) (rc : Nat) (st : Option Nat) (msg : String)
    (hrc : rc < 3) (he : env rc = .apiError st msg) (hr : rateLimitCheck st msg = true) :
    makeRequest env rc = ⟨(makeRequest env (rc + 1)).result, (makeRequest env (rc + 1)).attempts + 1,
      (2000 * 2 ^ rc) :: (makeRequest env (rc + 1)).delays⟩ := by
  conv_lhs => unfold makeRequest
  rw [he]
  simp [tryStep, hr, hrc]

lemma makeRequest_rl_stop (env : Nat → AttemptOut) (st : Option Nat) (msg : String)
    (he : env 3 = .apiError st msg) (hr : rateLimitCheck st msg = true) :
    makeRequest env 3 = ⟨.error "Voice service quota exceeded. Please try again later.", 1, []⟩ := by
  conv_lhs => unfold makeRequest
  rw [he]
  simp [tryStep, hr]

lemma makeRequest_attempts_cases (env : Nat → AttemptOut) (rc : Nat) :
    (makeRequest env rc).attempts = 1 ∨
    (rc < 3 ∧ (makeRequest env rc).attempts = (makeRequest env (rc + 1)).attempts + 1) := by
  rcases hts : tryStep (env rc) with d | - | ⟨st, msg⟩
  · have heq : makeRequest env rc = ⟨.ok d, 1, []⟩ := by
      conv_lhs => unfold makeRequest
      rw [hts]
    left
    rw [heq]
  · by_cases h2 : rc < 2
    · have heq : makeRequest env rc =
          ⟨(makeRequest env (rc + 1)).result, (makeRequest env (rc + 1)).attempts + 1,
            (1000 * (rc + 1)) :: (makeRequest env (rc + 1)).delays⟩ := by
        conv_lhs => unfold makeRequest
        rw [hts]
        simp [h2]
      right
      exact ⟨by omega, by rw [heq]⟩
    · have hrl : rateLimitCheck none "Audio generation failed (Reason: OTHER)" = false := by
        decide
      have heq : makeRequest env rc =
          ⟨.error "Audio generation failed (Reason: OTHER)", 1, []⟩ := by
        conv_lhs => unfold makeRequest
        rw [hts]
        simp [h2, hrl]
      left
      rw [heq]
  · by_cases hcond : (rateLimitCheck st msg || serverCheck st || otherCheck msg) = true ∧
        rc < (if rateLimitCheck st msg then 3 else 2)
    · have heq : makeRequest env rc =
          ⟨(makeRequest env (rc + 1)).result, (makeRequest env (rc + 1)).attempts + 1,
            ((if rateLimitCheck st msg then 2000 else 1000) * 2 ^ rc) ::
              (makeRequest env (rc + 1)).delays⟩ := by
        conv_lhs => unfold makeRequest
        rw [hts]
        dsimp only
        rw [dif_pos hcond]
      right
      refine ⟨?_, by rw [heq]⟩
      rcases hcond with ⟨-, hlt⟩
      by_cases hb : rateLimitCheck st msg = true
      · rw [if_pos hb] at hlt
        omega
      · rw [if_neg hb] at hlt
        omega
    · have heq : (makeRequest env rc).attempts = 1 := by
        conv_lhs => unfold makeRequest
        rw [hts]
        dsimp only
        rw [dif_neg hcond]
        split <;> rfl
      left
      exact heq

lemma makeRequest_attempts_le (env : Nat → AttemptOut) :
    ∀ (k rc : Nat), 3 ≤ rc + k → (makeRequest env rc).attempts ≤ k + 1 := by
  intro k
  induction k with
  | zero =>
    intro rc h3
    rcases makeRequest_attempts_cases env rc with h1 | ⟨hlt, -⟩
    · omega
    · omega
  | succ k ih =>
    intro rc h3
    rcases makeRequest_attempts_cases env rc with h1 | ⟨hlt, heq⟩
    · omega
    · rw [heq]
      have := ih (rc + 1) (by omega)
      omega

/-- A Firestore unavailable error and an environment where it is thrown by
the duplicate query, used by the C3 claims. -/
def offlineErr : JsError := ⟨some "unavailable", "client is offline"⟩

def remoteOffline : RemoteDb := ⟨[], some offlineErr, none⟩

/-- A constantly rate-limited attempt environment for the C6 witness. -/
def envRL : Nat → AttemptOut := fun _ => .apiError (some 429) "rate limited"

/-! ## Claim C3 -/

/-- Claim C3, counterexample: the remote store is unavailable and the word
text is already in the local list; the call then throws the already-saved
error and appends nothing, instead of appending the word and returning
true as the claim states. -/
theorem C3_local_fallback_cex :
    isFirestoreErrorB offlineErr = true ∧
    saveWordToProfile remoteOffline [sampleWord] "u1" sampleWord.toWordDetails 9 "d1" "local_9" =
      (.error ⟨none, "You have already saved this word."⟩, [], [sampleWord]) :=
  ⟨by decide, rfl⟩

/-- Claim C3, amended: when a Firestore error with a fallback code (or a
message containing permissions) reaches the catch block and the word text
is not already in the local list, the word is appended to the local list
with stage 0, next review now and isInFFL false, and the call returns
true; when the word text is already in the local list the already-saved
error is thrown instead; any error that fails the Firestore error test is
rethrown. -/
theorem C3_local_fallback (remote : RemoteDb) (localWords : List StoredWord)
    (userId : String) (wordData : WordDetails) (now : Nat) (docId localId : String)
    (e : JsError)
    (he : remote.queryError = some e ∨
          (remote.queryError = none ∧
           (remote.words.filter (fun w => w.word == wordData.word)).isEmpty = true ∧
           remote.addError = some e))
    (hfe : isFirestoreErrorB e = true)
    (hl : localWords.any (fun w => w.word == wordData.word) = false) :
    saveWordToProfile remote localWords userId wordData now docId localId =
      (.ok true, remote.words, localWords ++ [mkLocalWord wordData userId now localId]) ∧
    (mkLocalWord wordData userId now localId).srsStage = 0 ∧
    (mkLocalWord wordData userId now localId).nextReviewAt = now ∧
    (mkLocalWord wordData userId now localId).isInFFL = some false ∧
    (∀ (remote' : RemoteDb) (e' : JsError), remote'.queryError = some e' →
      isFirestoreErrorB e' = false →
      saveWordToProfile remote' localWords userId wordData now docId localId =
        (.error e', remote'.words, localWords)) := by
  refine ⟨?_, rfl, rfl, rfl, ?_⟩
  · unfold saveWordToProfile
    rcases he with hq | ⟨hq, hfil, hadd⟩
    · rw [hq]
      simp only []
      rw [if_pos hfe, if_neg (by rw [hl]; decide)]
    · rw [hq, hadd]
      rw [if_neg (by rw [hfil]; decide)]
      simp only []
      rw [if_pos hfe, if_neg (by rw [hl]; decide)]
  · intro remote' e' hq' hfe'
    unfold saveWordToProfile
    rw [hq']
    simp only []
    rw [if_neg (by rw [hfe']; decide)]

/-- Witness for the amended C3: offline save of a fresh word lands in the
local list. -/
theorem C3_local_fallback_witness :
    saveWordToProfile remoteOffline [] "u1" sampleWord.toWordDetails 9 "d1" "local_9" =
      (.ok true, [], [] ++ [mkLocalWord sampleWord.toWordDetails "u1" 9 "local_9"]) ∧
    (mkLocalWord sampleWord.toWordDetails "u1" 9 "local_9").srsStage = 0 ∧
    (mkLocalWord sampleWord.toWordDetails "u1" 9 "local_9").nextReviewAt = 9 ∧
    (mkLocalWord sampleWord.toWordDetails "u1" 9 "local_9").isInFFL = some false ∧
    (∀ (remote' : RemoteDb) (e' : JsError), remote'.queryError = some e' →
      isFirestoreErrorB e' = false →
      saveWordToProfile remote' [] "u1" sampleWord.toWordDetails 9 "d1" "local_9" =
        (.error e', remote'.words, [])) :=
  C3_local_fallback remoteOffline [] "u1" sampleWord.toWordDetails 9 "d1" "local_9"
    offlineErr (Or.inl rfl) (by decide) rfl

/-! ## Claim C4 -/

/-- Claim C4, counterexample: a word the user fails to recall in a due-mode
quiz review keeps its isInFFL flag unset and is absent from the FFL list;
the quiz failure handler only updates SRS progress. -/
theorem C4_quiz_ffl_cex :
    getFFLWordsPure (quizHandleResult .due [sampleWord] "w1" false 0 100) = [] ∧
    ((quizHandleResult .due [sampleWord] "w1" false 0 100)[0]?).map StoredWord.isInFFL =
      some none := by decide

/-- Claim C4, amended: the isInFFL flag is set when the user marks a word
as forgotten in the exam flow (Exam.handleNext calling markWordAsForgot),
not by a failed quiz recall (Quiz.handleResult never changes the flag in
either mode); FFL practice draws exactly from the words whose isInFFL
flag is true. -/
theorem C4_ffl_flow :
    (∀ (words : List StoredWord) (wordId : String) (i : Nat) (w : StoredWord),
      words.findIdx? (fun x => x.id == wordId) = some i →
      words[i]? = some w →
      (examHandleNext true words wordId)[i]? = some (setFFLTrue w) ∧
      (setFFLTrue w).isInFFL = some true) ∧
    (∀ (mode : QuizMode) (words : List StoredWord) (wordId : String) (c : Bool)
        (s : Int) (now : Nat) (j : Nat),
      ((quizHandleResult mode words wordId c s now)[j]?).map StoredWord.isInFFL =
        (words[j]?).map StoredWord.isInFFL) ∧
    (∀ (words : List StoredWord) (w : StoredWord),
      w ∈ getFFLWordsPure words ↔ w ∈ words ∧ w.isInFFL = some true) := by
  refine ⟨?_, ?_, ?_⟩
  · intro words wordId i w hf hg
    constructor
    · show (markWordAsForgotLocal words wordId)[i]? = some (setFFLTrue w)
      unfold markWordAsForgotLocal
      simp [hf, modifyAt_getElem?, hg]
    · rfl
  · intro mode words wordId c s now j
    cases mode
    · show ((updateWordProgressLocal words wordId c s now)[j]?).map StoredWord.isInFFL =
        (words[j]?).map StoredWord.isInFFL
      unfold updateWordProgressLocal
      cases hf : words.findIdx? (fun x => x.id == wordId) with
      | none => simp
      | some i =>
        simp only [modifyAt_getElem?]
        by_cases hji : j = i
        · subst hji
          simp only [if_pos rfl]
          cases words[j]? <;> rfl
        · simp [hji]
    · rfl
  · intro words w
    unfold getFFLWordsPure
    rw [List.mem_filter]
    simp

/-- Witness for the amended C4: marking the sample word as forgotten in an
exam sets its flag. -/
theorem C4_ffl_flow_witness :
    (examHandleNext true [sampleWord] "w1")[0]? = some (setFFLTrue sampleWord) ∧
    (setFFLTrue sampleWord).isInFFL = some true :=
  C4_ffl_flow.1 [sampleWord] "w1" 0 sampleWord (by decide) (by decide)

/-! ## Claim C5 -/

/-- Claim C5: the audio cache is keyed by the trimmed lowercased text, so
two normalization-equal texts hit the same entry in both prefetchAudio
and playText, and once a text is cached no later prefetch or playback
request whose text normalizes to the same key performs a TTS fetch. -/
theorem C5_audio_cache (c : AudioCache) (t : String) (b : Nat)
    (hc : cacheLookup c (audioCacheKey t) = some b) :
    (∀ (c' : AudioCache) (t1 t2 : String) (f : Option Nat),
      audioCacheKey t1 = audioCacheKey t2 → (t1 == "") = false → (t2 == "") = false →
      prefetchAudio c' t1 f = prefetchAudio c' t2 f ∧
      playTextCacheStep c' t1 f = playTextCacheStep c' t2 f) ∧
    (∀ (ops : List AudioOp) (p : String × Bool), p ∈ runAudioTrace c ops →
      p.1 = audioCacheKey t → p.2 = false) := by
  constructor
  · intro c' t1 t2 f hkey h1 h2
    constructor
    · unfold prefetchAudio
      rw [hkey]
      simp [h1, h2]
    · unfold playTextCacheStep
      rw [hkey]
      simp [h1, h2]
  · have main : ∀ (ops : List AudioOp) (c' : AudioCache),
        cacheLookup c' (audioCacheKey t) = some b →
        ∀ p : String × Bool, p ∈ runAudioTrace c' ops → p.1 = audioCacheKey t →
        p.2 = false := by
      intro ops
      induction ops with
      | nil =>
        intro c' hc' p hp
        exact absurd hp (by simp [runAudioTrace])
      | cons op rest ih =>
        intro c' hc' p hp hpk
        rw [runAudioTrace] at hp
        rcases List.mem_cons.mp hp with hhead | htail
        · subst hhead
          exact runAudioOp_no_refetch c' op (audioCacheKey t) b hc' (by simpa using hpk)
        · exact ih (runAudioOp c' op).1 (runAudioOp_preserves c' op _ b hc') p htail hpk
    intro ops
    exact main ops c hc

/-- Witness for C5: with hello cached, a differently-capitalized and padded
request never fetches. -/
theorem C5_audio_cache_witness :
    (∀ (c' : AudioCache) (t1 t2 : String) (f : Option Nat),
      audioCacheKey t1 = audioCacheKey t2 → (t1 == "") = false → (t2 == "") = false →
      prefetchAudio c' t1 f = prefetchAudio c' t2 f ∧
      playTextCacheStep c' t1 f = playTextCacheStep c' t2 f) ∧
    (∀ (ops : List AudioOp) (p : String × Bool),
      p ∈ runAudioTrace [("hello", 5)] ops →
      p.1 = audioCacheKey "  Hello " → p.2 = false) :=
  C5_audio_cache [("hello", 5)] "  Hello " 5 (by decide)

/-! ## Claim C6 -/

/-- Claim C6: under persistent rate limiting, fetchTtsAudio performs the
initial attempt plus exactly 3 retries, with doubling backoff delays
2000, 4000, 8000 milliseconds, and rejects with the quota-exceeded
message; and for every environment the number of attempts from retry
count 0 is bounded by 4. -/
theorem C6_tts_rate_limit (env : Nat → AttemptOut)
    (h : ∀ rc : Nat, ∃ (st : Option Nat) (msg : String),
      env rc = .apiError st msg ∧ rateLimitCheck st msg = true) :
    makeRequest env 0 =
      ⟨.error "Voice service quota exceeded. Please try again later.", 4, [2000, 4000, 8000]⟩ ∧
    List.Chain' (· < ·) (makeRequest env 0).delays ∧
    (∀ env' : Nat → AttemptOut, (makeRequest env' 0).attempts ≤ 4) := by
  have h3 : makeRequest env 3 =
      ⟨.error "Voice service quota exceeded. Please try again later.", 1, []⟩ := by
    obtain ⟨st, msg, he, hr⟩ := h 3
    exact makeRequest_rl_stop env st msg he hr
  have step : ∀ rc : Nat, rc < 3 →
      makeRequest env rc = ⟨(makeRequest env (rc + 1)).result,
        (makeRequest env (rc + 1)).attempts + 1,
        (2000 * 2 ^ rc) :: (makeRequest env (rc + 1)).delays⟩ := by
    intro rc hrc
    obtain ⟨st, msg, he, hr⟩ := h rc
    exact makeRequest_rl_retry env rc st msg hrc he hr
  have h2 : makeRequest env 2 =
      ⟨.error "Voice service quota exceeded. Please try again later.", 2, [8000]⟩ := by
    rw [step 2 (by omega), h3]
    rfl
  have h1 : makeRequest env 1 =
      ⟨.error "Voice service quota exceeded. Please try again later.", 3, [4000, 8000]⟩ := by
    rw [step 1 (by omega), h2]
    rfl
  have h0 : makeRequest env 0 =
      ⟨.error "Voice service quota exceeded. Please try again later.", 4, [2000, 4000, 8000]⟩ := by
    rw [step 0 (by omega), h1]
    rfl
  refine ⟨h0, ?_, ?_⟩
  · rw [h0]
    norm_num [List.chain'_cons]
  · intro env'
    exact makeRequest_attempts_le env' 3 0 (by omega)

/-- Witness for C6 on a constantly rate-limited environment. -/
theorem C6_tts_rate_limit_witness :
    makeRequest envRL 0 =
      ⟨.error "Voice service quota exceeded. Please try again later.", 4, [2000, 4000, 8000]⟩ ∧
    List.Chain' (· < ·) (makeRequest envRL 0).delays ∧
    (∀ env' : Nat → AttemptOut, (makeRequest env' 0).attempts ≤ 4) :=
  C6_tts_rate_limit envRL (fun _ => ⟨some 429, "rate limited", rfl, by decide⟩)

/-! ## Claim C9 -/

/-- Claim C9: saving a word whose text is already present throws the
already-saved error and leaves both the remote and the local word lists
unchanged, in the remote path as well as in the local fallback path. -/
theorem C9_duplicate_save (remote : RemoteDb) (localWords : List StoredWord)
    (userId : String) (wordData : WordDetails) (now : Nat) (docId localId : String) :
    (remote.queryError = none →
      (remote.words.any (fun w => w.word == wordData.word)) = true →
      saveWordToProfile remote localWords userId wordData now docId localId =
        (.error ⟨none, "You have already saved this word."⟩, remote.words, localWords)) ∧
    (∀ e : JsError, remote.queryError = some e → isFirestoreErrorB e = true →
      (localWords.any (fun w => w.word == wordData.word)) = true →
      saveWordToProfile remote localWords userId wordData now docId localId =
        (.error ⟨none, "You have already saved this word."⟩, remote.words, localWords)) := by
  constructor
  · intro hq hdup
    unfold saveWordToProfile
    rw [hq]
    have hne : (remote.words.filter (fun w => w.word == wordData.word)).isEmpty = false := by
      rcases List.any_eq_true.mp hdup with ⟨x, hx, hpx⟩
      have hmem : x ∈ remote.words.filter (fun w => w.word == wordData.word) :=
        List.mem_filter.mpr ⟨hx, hpx⟩
      cases hfil : remote.words.filter (fun w => w.word == wordData.word) with
      | nil => rw [hfil] at hmem; simp at hmem
      | cons a l => rfl
    rw [if_pos hne]
    simp only []
    rw [if_neg (by decide)]
  · intro e hq hfe hdup
    unfold saveWordToProfile
    rw [hq]
    simp only []
    rw [if_pos hfe, if_pos hdup]

/-- Witness for C9: saving the sample word again while it sits in the
remote store throws and changes nothing. -/
theorem C9_duplicate_save_witness :
    saveWordToProfile ⟨[sampleWord], none, none⟩ [] "u1" sampleWord.toWordDetails 9 "d1" "l1" =
      (.error ⟨none, "You have already saved this word."⟩, [sampleWord], []) :=
  (C9_duplicate_save ⟨[sampleWord], none, none⟩ [] "u1" sampleWord.toWordDetails 9 "d1" "l1").1
    rfl (by decide)

end VocabMaster
